import Mathlib

/-! fuse: the Lightning provider and its HTTP responses

A shallow embedding of `src/lnd/client.go`, `src/fuse/responses.go` and
`src/lightning/lightning.go`.

Conventions of the embedding:

* a Go `error` result is an `Option Error`, `none` being the nil error;
* a Go function returning `(T, error)` returns the pair `T × Option Error`;
* a Go slice is a `Slice`, which tells the nil slice from an empty slice that is
  not nil;
* a Go pointer or interface value that may be nil is an `Option`;
* a function of the embedding that can dereference nil returns an `Option` of its
  results, `none` being the run-time panic;
* `int64` and `btcutil.Amount` values are `Int`, `uint64` and `uint32` values are
  `Nat`; the one conversion that can wrap, to `int`, is `toInt`;
* contexts, HTTP writers and requests are dropped: no function under study reads
  them.
-/

set_option linter.dupNamespace false

/-! ## Go values -/

/-- One byte. -/
abbrev Byte := Fin 256

/-- A Go array `[n]byte`. -/
abbrev Bytes (n : Nat) := { l : List Byte // l.length = n }

/-- The zero value of `[n]byte`. -/
def Bytes.zero (n : Nat) : Bytes n := ⟨List.replicate n 0, List.length_replicate n 0⟩

/-- A Go slice: `nil` is the nil slice, `backed elems` a slice that is not nil. -/
inductive Slice (α : Type) where
  | nil
  | backed (elems : List α)
  deriving DecidableEq, Repr

namespace Slice

variable {α : Type}

/-- The elements a `range` loop visits, in order. -/
def toList : Slice α → List α
  | nil => []
  | backed elems => elems

/-- Go `len(s)`. -/
def len (s : Slice α) : Nat := s.toList.length

/-- Go `s == nil`. -/
def isNil : Slice α → Bool
  | nil => true
  | backed _ => false

/-- Go `append(s, x)`: the result is never nil. -/
def append (s : Slice α) (x : α) : Slice α := backed (s.toList ++ [x])

/-- The literal `[]T{}`: empty and not nil. -/
def empty : Slice α := backed []

end Slice

/-- Go `error` values other than nil. -/
inductive Error where
  -- the package variable `ErrInvoiceAlreadyPaid` of client.go:23
  | ErrInvoiceAlreadyPaid
  -- any other plain error value, told apart by its message
  | New (text : String)
  -- a `retry.Error`: the list of errors `retry.Do` collected
  | retryError (log : List Error)

/-- Width of the Go type `int`, taken to be 64 bits (amd64, arm64). -/
def intBits : Nat := 64

/-- Go conversion `int(x)` of an integer value to the 64-bit signed `int`:
the value is kept modulo `2^64` and read as two's complement. -/
def toInt (x : Int) : Int := (x + 2 ^ (intBits - 1)) % 2 ^ intBits - 2 ^ (intBits - 1)

/-! ## encoding/hex -/

namespace hex

/-- The constant `hextable` of encoding/hex. -/
def hextable : List Char := "0123456789abcdef".toList

/-- The digit `hextable[i]`. -/
def digit (i : Nat) : Char := hextable.getD i '0'

/-- Go `hex.EncodeToString`: two digits per byte, high nibble first. -/
def EncodeToString (src : List Byte) : String :=
  String.mk (src.flatMap fun v => [digit (v.val / 16), digit (v.val % 16)])

end hex

/-! ## Types of the libraries the backend is written against -/

namespace btcutil

/-- `btcutil.Amount`, an `int64` count of satoshis. -/
abbrev Amount := Int

end btcutil

namespace lnwire

/-- `lnwire.MilliSatoshi`, a `uint64`. -/
abbrev MilliSatoshi := Nat

end lnwire

namespace lntypes

/-- `lntypes.Preimage`, a `[32]byte`. -/
abbrev Preimage := Bytes 32

/-- `lntypes.Hash`, a `[32]byte`. -/
abbrev Hash := Bytes 32

end lntypes

namespace chainhash

/-- `chainhash.Hash`, a `[32]byte`. -/
abbrev Hash := Bytes 32

end chainhash

namespace route

/-- `route.Vertex`, a `[33]byte` compressed public key. -/
abbrev Vertex := Bytes 33

end route

namespace wire

/-- `wire.OutPoint`. -/
structure OutPoint where
  Hash : chainhash.Hash
  Index : Nat
  deriving DecidableEq

end wire

namespace invoicesrpc

/-- The fields of `invoicesrpc.AddInvoiceData` that client.go sets; every other
field keeps its zero value. -/
structure AddInvoiceData where
  Memo : String := ""
  Value : lnwire.MilliSatoshi := 0
  DescriptionHash : Slice Byte := Slice.nil
  deriving DecidableEq

end invoicesrpc

namespace lndclient

/-- `lndclient.PaymentResult`, the value delivered on the payment channel. -/
structure PaymentResult where
  Err : Option Error
  Preimage : lntypes.Preimage
  PaidFee : btcutil.Amount
  PaidAmt : btcutil.Amount

/-- `lndclient.WalletBalance`. -/
structure WalletBalance where
  Confirmed : btcutil.Amount
  Unconfirmed : btcutil.Amount
  deriving DecidableEq

/-- The fields of `lndclient.Peer` that client.go reads, with the byte counters. -/
structure Peer where
  Pubkey : route.Vertex
  Address : String
  BytesSent : Nat
  BytesReceived : Nat
  Inbound : Bool
  PingTime : Int
  Sent : btcutil.Amount
  Received : btcutil.Amount
  deriving DecidableEq

/-- The fields of `lndclient.ChannelInfo` that client.go reads. `ChannelID` is a
`uint64`. -/
structure ChannelInfo where
  Active : Bool
  Private : Bool
  ChannelID : Nat
  PubKeyBytes : route.Vertex
  Capacity : btcutil.Amount
  LocalBalance : btcutil.Amount
  RemoteBalance : btcutil.Amount
  deriving DecidableEq

end lndclient

/-! ## Package lightning -/

namespace lightning

/-- `lightning.Vertex`; client.go converts `route.Vertex` to it and back. -/
abbrev Vertex := Bytes 33

/-- `lightning.Network`; client.go converts a string to it. -/
abbrev Network := String

/-- Modelled from the spec: the declaration of `lightning.Invoice` is not among the
sources. The code under study reads the field `Encoded` only; the other fields
follow section 3 of the specification (payment hash, amount, description and
description hash). -/
structure Invoice where
  Encoded : String := ""
  PaymentHash : Bytes 32 := Bytes.zero 32
  Amount : Nat := 0
  Description : String := ""
  DescriptionHash : Slice Byte := Slice.nil
  deriving DecidableEq

/-- The fields `PreImage` and `PaidFee` that client.go and responses.go use of
`lightning.PaymentResult`; its zero value is the default. -/
structure PaymentResult where
  PreImage : lntypes.Preimage := Bytes.zero 32
  PaidFee : btcutil.Amount := 0
  deriving DecidableEq

/-- The fields of `lightning.Peer` that client.go sets. -/
structure Peer where
  Address : String
  Inbound : Bool
  PingTime : Int
  Pubkey : Vertex
  Sent : btcutil.Amount
  Received : btcutil.Amount
  deriving DecidableEq

/-- The fields of `lightning.Channel` that client.go sets. `ID` takes a
`uint64` without conversion, the balances take a `btcutil.Amount`. -/
structure Channel where
  ID : Nat
  Capacity : btcutil.Amount
  LocalBalance : btcutil.Amount
  RemoteBalance : btcutil.Amount
  Active : Bool
  Private : Bool
  RemotePubkey : Vertex
  deriving DecidableEq

end lightning

/-- Modelled from the spec: the package lnurl is not among the sources. A metadata
value is represented by the string its method `Encode` yields, the canonical
encoded form of the structured metadata. -/
structure lnurl.Metadata where
  Encode : String
  deriving DecidableEq

/-! ## github.com/avast/retry-go/v4 -/

namespace retry

/-- The settings of `retry.Do` that bear on how often the function is called and on
the error returned, with the defaults of `newDefaultRetryConfig`. The delay is in
nanoseconds. -/
structure Config where
  attempts : Nat := 10
  delay : Nat := 100000000
  lastErrorOnly : Bool := false
  deriving DecidableEq

/-- The option `retry.Attempts`. -/
def Attempts (attempts : Nat) (config : Config) : Config := { config with attempts := attempts }

/-- The option `retry.Delay`. -/
def Delay (delay : Nat) (config : Config) : Config := { config with delay := delay }

/-- The loop of `retry.Do` with `left` calls still allowed: a call that returns nil
ends the loop with nil, a call that fails is entered in the log, and after the last
allowed call the log is returned: as a `retry.Error` holding every entry, or its last
entry alone when `lastErrorOnly` is set. The function acts on a state `σ`; `none` is
a panic of the function. -/
def loop {σ : Type} (retryableFunc : σ → Option (σ × Option Error)) (lastErrorOnly : Bool) :
    Nat → List Error → σ → Option (σ × Option Error)
  | 0, errorLog, s =>
    some (s, if lastErrorOnly then errorLog.getLast? else some (Error.retryError errorLog))
  | left + 1, errorLog, s =>
    match retryableFunc s with
    | none => none
    | some (s1, none) => some (s1, none)
    | some (s1, some err) => loop retryableFunc lastErrorOnly left (errorLog ++ [err]) s1

/-- Model of `retry.Do` of the library github.com/avast/retry-go/v4, which is not
part of this repository, for a positive number of attempts and errors that are not
marked unrecoverable (lndclient does not mark its errors): the options are applied
to the default configuration and the function is called until it returns nil or the
attempts are used up. Sleeping between the calls is not modelled. -/
def Do {σ : Type} (retryableFunc : σ → Option (σ × Option Error))
    (opts : List (Config → Config)) (s : σ) : Option (σ × Option Error) :=
  let config := opts.foldl (fun config opt => opt config) {}
  loop retryableFunc config.lastErrorOnly config.attempts [] s

end retry

/-! ## Package lnd: client.go -/

namespace lnd

/-- The value `NullPreimage` of client.go:22, the zero preimage. -/
def NullPreimage : lntypes.Preimage := Bytes.zero 32

/-- The interface `lnd` of client.go:26-35, as the answers of a backend. `PayInvoice`
gives the one result received from the channel the backend returns. -/
structure lnd where
  AddInvoice : invoicesrpc.AddInvoiceData → lntypes.Hash × String × Option Error
  PayInvoice : String → btcutil.Amount → Option Nat → lndclient.PaymentResult
  WalletBalance : Option lndclient.WalletBalance × Option Error
  Connect : route.Vertex → String → Bool → Option Error
  ListPeers : Slice lndclient.Peer × Option Error
  OpenChannel : route.Vertex → btcutil.Amount → btcutil.Amount → Bool →
    Option wire.OutPoint × Option Error
  ListChannels : Bool → Bool → Slice lndclient.ChannelInfo × Option Error

/-- The struct `LndClient` of client.go:37-41. The field `lnd` holds an interface
value, which may be nil. -/
structure LndClient where
  lnd : Option lnd
  network : lightning.Network
  maxFee : btcutil.Amount

/-- The method `WalletBalance`, client.go:43-49. -/
def LndClient.WalletBalance (c : LndClient) : Option (btcutil.Amount × Option Error) :=
  match c.lnd with
  | none => none
  | some l =>
    match l.WalletBalance with
    | (_, some err) => some (0, some err)
    | (none, none) => none
    | (some balance, none) => some (balance.Confirmed, none)

/-- The method `PayInvoice`, client.go:51-62. -/
def LndClient.PayInvoice (c : LndClient) (invoice : lightning.Invoice) :
    Option (lightning.PaymentResult × Option Error) :=
  match c.lnd with
  | none => none
  | some l =>
    let result := l.PayInvoice invoice.Encoded c.maxFee none
    if result.Err.isSome then
      some ({}, result.Err)
    else if result.Preimage = NullPreimage then
      some ({}, some Error.ErrInvoiceAlreadyPaid)
    else
      some ({ PreImage := result.Preimage, PaidFee := result.PaidFee }, none)

/-- The request built in client.go:66-71, before the backend is called. -/
def addInvoiceData (value : lnwire.MilliSatoshi) (memo : String) (hhash : Slice Byte) :
    invoicesrpc.AddInvoiceData :=
  let data : invoicesrpc.AddInvoiceData := { Value := value }
  if hhash.len > 0 then
    { data with DescriptionHash := hhash }
  else
    { data with Memo := memo }

/-- The method `AddInvoice`, client.go:64-84. `DecodeInvoice` is the function
`lightning.DecodeInvoice`, whose source is not at hand: it is a parameter. -/
def LndClient.AddInvoice
    (DecodeInvoice : String → lightning.Network → lightning.Invoice × Option Error)
    (c : LndClient) (value : lnwire.MilliSatoshi) (memo : String) (hhash : Slice Byte) :
    Option (lightning.Invoice × Option Error) :=
  let data := addInvoiceData value memo hhash
  match c.lnd with
  | none => none
  | some l =>
    match l.AddInvoice data with
    | (_, _, some err) => some ({}, some err)
    | (_, encoded, none) =>
      match DecodeInvoice encoded c.network with
      | (_, some err) => some ({}, some err)
      | (invoice, none) => some (invoice, none)

/-- The method `ListPeers`, client.go:86-106. -/
def LndClient.ListPeers (c : LndClient) : Option (Slice lightning.Peer × Option Error) :=
  match c.lnd with
  | none => none
  | some l =>
    match l.ListPeers with
    | (_, some err) => some (Slice.empty, some err)
    | (lndPeers, none) =>
      let peers := lndPeers.toList.foldl
        (fun (peers : Slice lightning.Peer) p => peers.append {
          Address := p.Address
          Inbound := p.Inbound
          PingTime := p.PingTime
          Pubkey := p.Pubkey
          Sent := p.Sent
          Received := p.Received })
        Slice.nil
      some (peers, none)

/-- The method `ConnectPeer`, client.go:108-110. -/
def LndClient.ConnectPeer (c : LndClient) (peer : lightning.Vertex) (host : String) :
    Option (Option Error) :=
  match c.lnd with
  | none => none
  | some l => some (l.Connect peer host true)

/-- The method `OpenChannel`, client.go:112-118; `priv` is its parameter `private`. -/
def LndClient.OpenChannel (c : LndClient) (peer : lightning.Vertex)
    (localSat pushSat : btcutil.Amount) (priv : Bool) :
    Option (chainhash.Hash × Nat × Option Error) :=
  match c.lnd with
  | none => none
  | some l =>
    match l.OpenChannel peer localSat pushSat priv with
    | (_, some err) => some (Bytes.zero 32, 0, some err)
    | (none, none) => none
    | (some result, none) => some (result.Hash, result.Index, none)

/-- The method `ListChannels`, client.go:120-140. -/
def LndClient.ListChannels (c : LndClient) (activeOnly publicOnly : Bool) :
    Option (Slice lightning.Channel × Option Error) :=
  match c.lnd with
  | none => none
  | some l =>
    match l.ListChannels activeOnly publicOnly with
    | (_, some err) => some (Slice.empty, some err)
    | (lndChannels, none) =>
      let channels := lndChannels.toList.foldl
        (fun (channels : Slice lightning.Channel) c => channels.append {
          ID := c.ChannelID
          Capacity := c.Capacity
          LocalBalance := c.LocalBalance
          RemoteBalance := c.RemoteBalance
          Active := c.Active
          Private := c.Private
          RemotePubkey := c.PubKeyBytes })
        Slice.nil
      some (channels, none)

/-- The struct `lndclient.LndServicesConfig`, with the fields client.go sets. -/
structure LndServicesConfig where
  LndAddress : String
  Network : String
  CustomMacaroonPath : String
  TLSPath : String
  deriving DecidableEq

/-- The struct `lndclient.GrpcLndServices`, with the field client.go reads. -/
structure GrpcLndServices where
  Client : Option lnd

/-- What `lndclient.NewLndServices` acts on: the answer of its call number `k`
(from 0) for a configuration, and the number of calls made so far. -/
structure Dialer where
  NewLndServices : Nat → LndServicesConfig → Option GrpcLndServices × Option Error
  calls : Nat

/-- The function literal of client.go:153-161: one connection attempt. It acts on the
dialer and on the captured variable `lnd`. The message printed on failure is not
modelled. -/
def connectAttempt (cfg : LndServicesConfig) (s : Dialer × Option lnd) :
    Option ((Dialer × Option lnd) × Option Error) :=
  let d : Dialer := { s.1 with calls := s.1.calls + 1 }
  match s.1.NewLndServices s.1.calls cfg with
  | (_, some err) => some ((d, s.2), some err)
  | (none, none) => none
  | (some services, none) => some ((d, services.Client), none)

/-- The function `connect`, client.go:142-167. Besides the two results it gives the
dialer after the calls. -/
def connect (d : Dialer) (address network macPath tlsPath : String) :
    Option ((Option lnd × Option Error) × Dialer) :=
  let cfg : LndServicesConfig := {
    LndAddress := address
    Network := network
    CustomMacaroonPath := macPath
    TLSPath := tlsPath }
  match retry.Do (connectAttempt cfg) [retry.Attempts 10, retry.Delay (1 * 1000000000)] (d, none) with
  | none => none
  | some ((d1, lnd), err) => some ((lnd, err), d1)

/-- The function `NewClient`, client.go:169-175. Besides the two results it gives the
dialer after the calls. -/
def NewClient (d : Dialer) (address network macPath tlsPath : String) (maxFee : btcutil.Amount) :
    Option ((Option LndClient × Option Error) × Dialer) :=
  match connect d address network macPath tlsPath with
  | none => none
  | some ((_, some err), d1) => some ((none, some err), d1)
  | some ((lnd, none), d1) =>
    some ((some { lnd := lnd, network := network, maxFee := maxFee }, none), d1)

end lnd

/-! ## Package fuse: responses.go -/

namespace fuse

/-- The struct `Channel` of responses.go:58-66; its numbers are Go `int`s. -/
structure Channel where
  ID : Int
  LocalBalance : Int
  RemoteBalance : Int
  Capacity : Int
  Active : Bool
  Private : Bool
  RemotePubkey : String
  deriving DecidableEq

/-- The struct `ListChannelsResponse` of responses.go:68-70. -/
structure ListChannelsResponse where
  Channels : Slice Channel
  deriving DecidableEq

/-- The method `Render` of `ListChannelsResponse`, responses.go:72-74. -/
def ListChannelsResponse.Render (_lcr : ListChannelsResponse) : Option Error := none

/-- The response entry appended for one channel, responses.go:80-90. -/
def channelEntry (c : lightning.Channel) : Channel :=
  let pubkey := hex.EncodeToString c.RemotePubkey.val
  { ID := toInt c.ID
    LocalBalance := toInt c.LocalBalance
    RemoteBalance := toInt c.RemoteBalance
    Capacity := toInt c.Capacity
    Active := c.Active
    Private := c.Private
    RemotePubkey := pubkey }

/-- The function `NewListChannelsResponse`, responses.go:76-94. -/
def NewListChannelsResponse (channels : Slice lightning.Channel) : ListChannelsResponse :=
  let chans := channels.toList.foldl
    (fun (chans : Slice Channel) c => chans.append (channelEntry c)) Slice.nil
  { Channels := chans }

/-- The struct `LNURLPResponse` of responses.go:108-114. -/
structure LNURLPResponse where
  Callback : String
  MaxSendable : Int
  MinSendable : Int
  Metadata : String
  Tag : String
  deriving DecidableEq

/-- The method `Render` of `LNURLPResponse`, responses.go:116-121. -/
def LNURLPResponse.Render (l : LNURLPResponse) : Option Error :=
  if l.MaxSendable < l.MinSendable then
    some (Error.New "maxSendable must be larger than minSendable")
  else
    none

/-- The function `NewLNURLPResponse`, responses.go:123-131. -/
def NewLNURLPResponse (callback : String) (min max : Int) (metadata : lnurl.Metadata)
    (tag : String) : LNURLPResponse :=
  { Callback := callback
    MinSendable := min
    MaxSendable := max
    Metadata := metadata.Encode
    Tag := tag }

/-- The struct `LNURLPCallbackResponse` of responses.go:133-136. -/
structure LNURLPCallbackResponse where
  PR : String
  Routes : Slice String
  deriving DecidableEq

/-- The method `Render` of `LNURLPCallbackResponse`, responses.go:138-140. -/
def LNURLPCallbackResponse.Render (_l : LNURLPCallbackResponse) : Option Error := none

/-- The function `NewLNURLPCallbackResponse`, responses.go:142-147. -/
def NewLNURLPCallbackResponse (invoice : lightning.Invoice) : LNURLPCallbackResponse :=
  { PR := invoice.Encoded
    Routes := Slice.empty }

end fuse

/-! ## Concrete backends for the examples -/

namespace Example

/-- A backend that answers every call with zero values and no error. -/
def quiet : lnd.lnd where
  AddInvoice := fun _ => (Bytes.zero 32, "", none)
  PayInvoice := fun _ _ _ => { Err := none, Preimage := Bytes.zero 32, PaidFee := 0, PaidAmt := 0 }
  WalletBalance := (some { Confirmed := 0, Unconfirmed := 0 }, none)
  Connect := fun _ _ _ => none
  ListPeers := (Slice.empty, none)
  OpenChannel := fun _ _ _ _ => (some { Hash := Bytes.zero 32, Index := 0 }, none)
  ListChannels := fun _ _ => (Slice.empty, none)

/-- A provider over the given backend, on the test network, with a fee limit of 100. -/
def client (l : lnd.lnd) : lnd.LndClient := { lnd := some l, network := "testnet", maxFee := 100 }

/-- A preimage that is not zero: its first byte is 1. -/
def preimageOne : lntypes.Preimage := ⟨1 :: List.replicate 31 0, by simp⟩

/-- The backend error used in the examples. -/
def failure : Error := Error.New "payment failed"

/-- A payment result delivered by the backend. -/
def paymentResult (err : Option Error) (preimage : lntypes.Preimage) : lndclient.PaymentResult :=
  { Err := err, Preimage := preimage, PaidFee := 7, PaidAmt := 1000 }

/-- A backend whose payments all end in the given result. -/
def paying (result : lndclient.PaymentResult) : lnd.lnd :=
  { quiet with PayInvoice := fun _ _ _ => result }

/-- A decoder for the examples: it accepts the one string "lntb10u1example" on the
test network and reports an error otherwise. -/
def decode (encoded : String) (network : lightning.Network) : lightning.Invoice × Option Error :=
  if encoded = "lntb10u1example" ∧ network = "testnet" then
    ({ Encoded := encoded, Amount := 1000 }, none)
  else
    ({}, some (Error.New "invalid invoice"))

/-- A backend that answers every invoice request with the given string. -/
def invoicing (encoded : String) : lnd.lnd :=
  { quiet with AddInvoice := fun _ => (preimageOne, encoded, none) }

/-- A public key: the byte 2 followed by 32 bytes 171. -/
def pubkey : route.Vertex := ⟨2 :: List.replicate 32 171, by simp⟩

/-- A peer record of the backend. -/
def peer : lndclient.Peer :=
  { Pubkey := pubkey, Address := "10.0.0.2:9735", BytesSent := 10, BytesReceived := 20,
    Inbound := true, PingTime := 5, Sent := 1, Received := 2 }

/-- A channel record of the backend with the given channel id. -/
def channelInfo (id : Nat) : lndclient.ChannelInfo :=
  { Active := true, Private := false, ChannelID := id, PubKeyBytes := pubkey,
    Capacity := 100000, LocalBalance := 60000, RemoteBalance := 40000 }

/-- A backend that lists the given channel records without error. -/
def listing (channels : Slice lndclient.ChannelInfo) : lnd.lnd :=
  { quiet with ListChannels := fun _ _ => (channels, none) }

/-- A backend every call of which reports `failure`, next to populated values. -/
def failing : lnd.lnd where
  AddInvoice := fun _ => (preimageOne, "lntb10u1example", some failure)
  PayInvoice := fun _ _ _ => paymentResult (some failure) preimageOne
  WalletBalance := (some { Confirmed := 5, Unconfirmed := 6 }, some failure)
  Connect := fun _ _ _ => some failure
  ListPeers := (Slice.backed [peer], some failure)
  OpenChannel := fun _ _ _ _ => (some { Hash := preimageOne, Index := 3 }, some failure)
  ListChannels := fun _ _ => (Slice.backed [channelInfo 1], some failure)

/-- A dialer whose first `failures` calls are refused and whose later calls reach the
given backend; the last refused call reports a timeout. -/
def dialer (failures : Nat) (l : lnd.lnd) : lnd.Dialer where
  NewLndServices := fun k _ =>
    if k + 1 < failures then (none, some (Error.New "connection refused"))
    else if k + 1 = failures then (none, some (Error.New "deadline exceeded"))
    else (some { Client := some l }, none)
  calls := 0

/-- The error by which the backend `reporting` tells which request it received. -/
def report (d : invoicesrpc.AddInvoiceData) : Error :=
  Error.New ("value " ++ toString d.Value ++ ", memo [" ++ d.Memo ++
    "], description hash of " ++ toString d.DescriptionHash.len ++ " bytes")

/-- A backend that refuses every invoice request with the report of that request. -/
def reporting : lnd.lnd :=
  { quiet with AddInvoice := fun d => (Bytes.zero 32, "", some (report d)) }

end Example

/-! ## Theorems -/

open lnd fuse

/-! ### Auxiliary facts -/

theorem Slice.isNil_append {α : Type} (s : Slice α) (x : α) : (s.append x).isNil = false := rfl

theorem Error.New_ne_ErrInvoiceAlreadyPaid (text : String) :
    Error.New text ≠ Error.ErrInvoiceAlreadyPaid := by
  intro h
  cases h

/-! ### LNURL-pay responses -/

/-- C1: for the response built by `NewLNURLPResponse callback min max metadata tag`,
`Render` returns an error exactly when `max < min` (so it returns nil when
`max = min` and when `max > min`), and the response carries `min` as `MinSendable`
and `max` as `MaxSendable`. -/
theorem NewLNURLPResponse_render (callback : String) (min max : Int)
    (metadata : lnurl.Metadata) (tag : String) :
    ((NewLNURLPResponse callback min max metadata tag).Render ≠ none ↔ max < min) ∧
    ((NewLNURLPResponse callback min max metadata tag).Render = none ↔ min ≤ max) ∧
    (NewLNURLPResponse callback min max metadata tag).MinSendable = min ∧
    (NewLNURLPResponse callback min max metadata tag).MaxSendable = max := by
  refine ⟨?_, ?_, rfl, rfl⟩
  · by_cases h : max < min <;> simp [NewLNURLPResponse, LNURLPResponse.Render, h]
  · by_cases h : max < min
    · simp [NewLNURLPResponse, LNURLPResponse.Render, h]
    · simp [NewLNURLPResponse, LNURLPResponse.Render, h, not_lt.mp h]

/-- C7: for every invoice, `NewLNURLPCallbackResponse` gives a response whose `PR` is
the invoice's `Encoded` string and whose `Routes` is a list that is not nil and has
length 0, and `Render` of that response returns nil. -/
theorem NewLNURLPCallbackResponse_shape (invoice : lightning.Invoice) :
    (NewLNURLPCallbackResponse invoice).PR = invoice.Encoded ∧
    (NewLNURLPCallbackResponse invoice).Routes.isNil = false ∧
    (NewLNURLPCallbackResponse invoice).Routes.len = 0 ∧
    (NewLNURLPCallbackResponse invoice).Render = none :=
  ⟨rfl, rfl, rfl, rfl⟩

/-! ### PayInvoice -/

/-- C2: `PayInvoice` classifies the result the backend delivers in this order: a
result with an error gives the zero `PaymentResult` and that error; otherwise a
result with the zero preimage gives the zero `PaymentResult` and
`ErrInvoiceAlreadyPaid`; otherwise the call returns the backend's preimage and paid
fee with a nil error. A call that returns a nil error never returns the zero
preimage. -/
theorem PayInvoice_classifies (c : LndClient) (l : lnd.lnd) (invoice : lightning.Invoice)
    (result : lndclient.PaymentResult) (hl : c.lnd = some l)
    (hr : l.PayInvoice invoice.Encoded c.maxFee none = result) :
    (∀ e, result.Err = some e → c.PayInvoice invoice = some ({}, some e)) ∧
    (result.Err = none → result.Preimage = NullPreimage →
      c.PayInvoice invoice = some ({}, some Error.ErrInvoiceAlreadyPaid)) ∧
    (result.Err = none → result.Preimage ≠ NullPreimage →
      c.PayInvoice invoice =
        some ({ PreImage := result.Preimage, PaidFee := result.PaidFee }, none)) ∧
    (∀ r, c.PayInvoice invoice = some (r, none) → r.PreImage ≠ NullPreimage) := by
  subst hr
  refine ⟨?_, ?_, ?_, ?_⟩
  · intro e he
    simp [LndClient.PayInvoice, hl, he]
  · intro he hp
    simp [LndClient.PayInvoice, hl, he, hp]
  · intro he hp
    simp [LndClient.PayInvoice, hl, he, hp]
  · intro r hres
    simp only [LndClient.PayInvoice, hl] at hres
    split at hres
    · rename_i he
      cases hErr : (l.PayInvoice invoice.Encoded c.maxFee none).Err with
      | none => simp [hErr] at he
      | some e => simp [hErr] at hres
    · split at hres
      · simp at hres
      · rename_i hp
        simp only [Option.some.injEq, Prod.mk.injEq, and_true] at hres
        subst hres
        exact hp

/-- Witness of C2 on three backends: one failing, one answering with the zero
preimage, one answering with a preimage that is not zero. -/
theorem PayInvoice_classifies_witness :
    (Example.client (Example.paying (Example.paymentResult (some Example.failure)
        Example.preimageOne))).PayInvoice {} = some ({}, some Example.failure) ∧
    (Example.client (Example.paying (Example.paymentResult none
        NullPreimage))).PayInvoice {} = some ({}, some Error.ErrInvoiceAlreadyPaid) ∧
    (Example.client (Example.paying (Example.paymentResult none
        Example.preimageOne))).PayInvoice {} =
      some ({ PreImage := Example.preimageOne, PaidFee := 7 }, none) :=
  ⟨(PayInvoice_classifies _ _ {} _ rfl rfl).1 _ rfl,
   (PayInvoice_classifies _ _ {} _ rfl rfl).2.1 rfl rfl,
   (PayInvoice_classifies _ _ {} _ rfl rfl).2.2.1 rfl (by decide)⟩

/-- C3, as stated, fails: the backend delivers a result whose preimage is zero and
whose error is set; `PayInvoice` returns that backend error, which is not
`ErrInvoiceAlreadyPaid`. -/
theorem PayInvoice_zero_preimage_backend_error :
    (Example.paymentResult (some Example.failure) NullPreimage).Preimage = NullPreimage ∧
    (Example.client (Example.paying (Example.paymentResult (some Example.failure)
        NullPreimage))).PayInvoice {} = some ({}, some (Error.New "payment failed")) ∧
    (Example.client (Example.paying (Example.paymentResult (some Example.failure)
        NullPreimage))).PayInvoice {} ≠ some ({}, some Error.ErrInvoiceAlreadyPaid) := by
  refine ⟨rfl, rfl, ?_⟩
  intro h
  have h2 : some (({} : lightning.PaymentResult), some (Error.New "payment failed")) =
      some ({}, some Error.ErrInvoiceAlreadyPaid) := h
  simp at h2

/-- C3, amended: for a backend result whose preimage is zero, `PayInvoice` returns
`ErrInvoiceAlreadyPaid` when the result's error is nil, and returns the result's
error when it is set; in both cases with the zero `PaymentResult`. -/
theorem PayInvoice_zero_preimage (c : LndClient) (l : lnd.lnd) (invoice : lightning.Invoice)
    (hl : c.lnd = some l)
    (hp : (l.PayInvoice invoice.Encoded c.maxFee none).Preimage = NullPreimage) :
    ((l.PayInvoice invoice.Encoded c.maxFee none).Err = none →
      c.PayInvoice invoice = some ({}, some Error.ErrInvoiceAlreadyPaid)) ∧
    (∀ e, (l.PayInvoice invoice.Encoded c.maxFee none).Err = some e →
      c.PayInvoice invoice = some ({}, some e)) := by
  constructor
  · intro he
    simp [LndClient.PayInvoice, hl, he, hp]
  · intro e he
    simp [LndClient.PayInvoice, hl, he]

/-- Witness of the amended C3: the zero preimage without a backend error. -/
theorem PayInvoice_zero_preimage_witness :
    (Example.client (Example.paying (Example.paymentResult none
        NullPreimage))).PayInvoice {} = some ({}, some Error.ErrInvoiceAlreadyPaid) :=
  (PayInvoice_zero_preimage
    (Example.client (Example.paying (Example.paymentResult none NullPreimage)))
    (Example.paying (Example.paymentResult none NullPreimage)) {} rfl rfl).1 rfl

/-! ### AddInvoice -/

/-- C4: `AddInvoice` calls the backend with one request, and returns what
client.go:73-83 make of the backend's answer to it. That request carries the given
value; with a description hash of positive length it carries that hash and an empty
memo, whatever the memo given; with a description hash that is nil or empty it
carries the memo and a description hash of length 0. It never carries both a memo and
a description hash that are not empty. A backend that answers every request with an
error reporting the request it received makes `AddInvoice` return the report of
exactly that request. -/
theorem AddInvoice_request (value : lnwire.MilliSatoshi) (memo : String) (hhash : Slice Byte) :
    (addInvoiceData value memo hhash).Value = value ∧
    (0 < hhash.len →
      (addInvoiceData value memo hhash).DescriptionHash = hhash ∧
      (addInvoiceData value memo hhash).Memo = "") ∧
    (hhash.len = 0 →
      (addInvoiceData value memo hhash).Memo = memo ∧
      (addInvoiceData value memo hhash).DescriptionHash.len = 0) ∧
    ¬ ((addInvoiceData value memo hhash).Memo ≠ "" ∧
      (addInvoiceData value memo hhash).DescriptionHash.len ≠ 0) ∧
    (∀ (DecodeInvoice : String → lightning.Network → lightning.Invoice × Option Error)
      (c : LndClient) (l : lnd.lnd), c.lnd = some l →
      c.AddInvoice DecodeInvoice value memo hhash =
        match l.AddInvoice (addInvoiceData value memo hhash) with
        | (_, _, some err) => some ({}, some err)
        | (_, encoded, none) =>
          match DecodeInvoice encoded c.network with
          | (_, some err) => some ({}, some err)
          | (invoice, none) => some (invoice, none)) ∧
    (∀ (DecodeInvoice : String → lightning.Network → lightning.Invoice × Option Error)
      (c : LndClient) (l : lnd.lnd) (report : invoicesrpc.AddInvoiceData → Error),
      c.lnd = some l → (∀ d, (l.AddInvoice d).2.2 = some (report d)) →
      c.AddInvoice DecodeInvoice value memo hhash =
        some ({}, some (report
          (if 0 < hhash.len then
            { Memo := "", Value := value, DescriptionHash := hhash }
          else
            { Memo := memo, Value := value, DescriptionHash := Slice.nil })))) := by
  have hdata : addInvoiceData value memo hhash =
      (if 0 < hhash.len then
        { Memo := "", Value := value, DescriptionHash := hhash }
      else
        { Memo := memo, Value := value, DescriptionHash := Slice.nil }) := by
    unfold addInvoiceData
    split <;> rfl
  refine ⟨?_, ?_, ?_, ?_, ?_, ?_⟩
  · unfold addInvoiceData
    split <;> rfl
  · intro h
    simp [addInvoiceData, h]
  · intro h
    have h0 : ¬ 0 < hhash.len := by omega
    have hd : addInvoiceData value memo hhash = { Memo := memo, Value := value } := by
      simp [addInvoiceData, h0]
    rw [hd]
    exact ⟨rfl, rfl⟩
  · by_cases h : 0 < hhash.len
    · simp [addInvoiceData, h]
    · have hd : addInvoiceData value memo hhash = { Memo := memo, Value := value } := by
        simp [addInvoiceData, h]
      rw [hd]
      intro hh
      exact hh.2 rfl
  · intro DecodeInvoice c l hl
    rcases hb : l.AddInvoice (addInvoiceData value memo hhash) with ⟨hash, enc, err⟩
    cases err with
    | some e0 => simp [LndClient.AddInvoice, hl, hb]
    | none =>
      rcases hd : DecodeInvoice enc c.network with ⟨inv, derr⟩
      cases derr with
      | some e1 => simp [LndClient.AddInvoice, hl, hb, hd]
      | none => simp [LndClient.AddInvoice, hl, hb, hd]
  · intro DecodeInvoice c l report hl hrep
    have he := hrep (addInvoiceData value memo hhash)
    rcases hb : l.AddInvoice (addInvoiceData value memo hhash) with ⟨hash, enc, err⟩
    rw [hb] at he
    simp only at he
    subst he
    rw [← hdata]
    simp [LndClient.AddInvoice, hl, hb]

/-- Witness of C4: a backend that reports the request it received, asked with a memo
together with a two-byte description hash, then with the memo alone. The request
that arrives carries the hash and no memo in the first case, the memo and no hash in
the second. -/
theorem AddInvoice_request_witness :
    (Example.client Example.reporting).AddInvoice Example.decode 1000 "coffee"
        (Slice.backed [1, 2]) =
      some ({}, some (Example.report
        { Memo := "", Value := 1000, DescriptionHash := Slice.backed [1, 2] })) ∧
    (Example.client Example.reporting).AddInvoice Example.decode 1000 "coffee" Slice.nil =
      some ({}, some (Example.report
        { Memo := "coffee", Value := 1000, DescriptionHash := Slice.nil })) ∧
    Example.report { Memo := "", Value := 1000, DescriptionHash := Slice.backed [1, 2] } =
      Error.New "value 1000, memo [], description hash of 2 bytes" ∧
    Example.report { Memo := "coffee", Value := 1000, DescriptionHash := Slice.nil } =
      Error.New "value 1000, memo [coffee], description hash of 0 bytes" :=
  ⟨(AddInvoice_request 1000 "coffee" (Slice.backed [1, 2])).2.2.2.2.2 Example.decode
      (Example.client Example.reporting) Example.reporting Example.report rfl (fun _ => rfl),
   (AddInvoice_request 1000 "coffee" Slice.nil).2.2.2.2.2 Example.decode
      (Example.client Example.reporting) Example.reporting Example.report rfl (fun _ => rfl),
   congrArg Error.New (by decide), congrArg Error.New (by decide)⟩

/-- C9: `AddInvoice` returns a nil error exactly when the backend call returns a nil
error and `DecodeInvoice` of the returned string under the provider's network
returns a nil error; it then returns the invoice `DecodeInvoice` gave. When the
decoding fails it returns the zero invoice and the decoding error. The hash the
backend returns beside the string plays no part. -/
theorem AddInvoice_decodes
    (DecodeInvoice : String → lightning.Network → lightning.Invoice × Option Error)
    (c : LndClient) (l : lnd.lnd) (value : lnwire.MilliSatoshi) (memo : String)
    (hhash : Slice Byte) (hash : lntypes.Hash) (encoded : String) (err : Option Error)
    (hl : c.lnd = some l)
    (hb : l.AddInvoice (addInvoiceData value memo hhash) = (hash, encoded, err)) :
    ((∃ invoice, c.AddInvoice DecodeInvoice value memo hhash = some (invoice, none)) ↔
      err = none ∧ (DecodeInvoice encoded c.network).2 = none) ∧
    (err = none → (DecodeInvoice encoded c.network).2 = none →
      c.AddInvoice DecodeInvoice value memo hhash =
        some ((DecodeInvoice encoded c.network).1, none)) ∧
    (err = none → ∀ e, (DecodeInvoice encoded c.network).2 = some e →
      c.AddInvoice DecodeInvoice value memo hhash = some ({}, some e)) ∧
    (∀ e, err = some e → c.AddInvoice DecodeInvoice value memo hhash = some ({}, some e)) := by
  cases err with
  | some e0 => simp [LndClient.AddInvoice, hl, hb]
  | none =>
    rcases hd : DecodeInvoice encoded c.network with ⟨inv, derr⟩
    cases derr with
    | some e1 => simp [LndClient.AddInvoice, hl, hb, hd]
    | none => simp [LndClient.AddInvoice, hl, hb, hd]

/-- Witness of C9: the backend returns a string the decoder accepts, and one it
rejects. -/
theorem AddInvoice_decodes_witness :
    (Example.client (Example.invoicing "lntb10u1example")).AddInvoice Example.decode
        1000 "coffee" Slice.nil =
      some ({ Encoded := "lntb10u1example", Amount := 1000 }, none) ∧
    (Example.client (Example.invoicing "garbage")).AddInvoice Example.decode
        1000 "coffee" Slice.nil =
      some ({}, some (Error.New "invalid invoice")) :=
  ⟨(AddInvoice_decodes Example.decode (Example.client (Example.invoicing "lntb10u1example"))
      (Example.invoicing "lntb10u1example") 1000 "coffee" Slice.nil Example.preimageOne
      "lntb10u1example" none rfl rfl).2.1 rfl rfl,
   (AddInvoice_decodes Example.decode (Example.client (Example.invoicing "garbage"))
      (Example.invoicing "garbage") 1000 "coffee" Slice.nil Example.preimageOne
      "garbage" none rfl rfl).2.2.1 rfl (Error.New "invalid invoice") rfl⟩

/-! ### Backend errors -/

/-- C8: when the backend call of a provider operation reports an error `e`, the
operation returns `e` itself with the zero result of its type: amount 0, the zero
invoice, the zero payment result, the zero hash with index 0, and for `ListPeers`
and `ListChannels` a list that is empty and not nil; `ConnectPeer` returns `e`. And
no operation returns an error that is not nil together with a result that is not
that zero result. -/
theorem backend_error_returned (c : LndClient) (l : lnd.lnd) (hl : c.lnd = some l) :
    (∀ e, l.WalletBalance.2 = some e → c.WalletBalance = some (0, some e)) ∧
    (∀ e DecodeInvoice value memo hhash,
      (l.AddInvoice (addInvoiceData value memo hhash)).2.2 = some e →
      c.AddInvoice DecodeInvoice value memo hhash = some ({}, some e)) ∧
    (∀ e invoice, (l.PayInvoice invoice.Encoded c.maxFee none).Err = some e →
      c.PayInvoice invoice = some ({}, some e)) ∧
    (∀ e, l.ListPeers.2 = some e →
      c.ListPeers = some (Slice.backed [], some e)) ∧
    (∀ e peer host, l.Connect peer host true = some e →
      c.ConnectPeer peer host = some (some e)) ∧
    (∀ e peer localSat pushSat priv, (l.OpenChannel peer localSat pushSat priv).2 = some e →
      c.OpenChannel peer localSat pushSat priv = some (Bytes.zero 32, 0, some e)) ∧
    (∀ e activeOnly publicOnly, (l.ListChannels activeOnly publicOnly).2 = some e →
      c.ListChannels activeOnly publicOnly = some (Slice.backed [], some e)) ∧
    (∀ r e, c.WalletBalance = some (r, some e) → r = 0) ∧
    (∀ DecodeInvoice value memo hhash r e,
      c.AddInvoice DecodeInvoice value memo hhash = some (r, some e) → r = {}) ∧
    (∀ invoice r e, c.PayInvoice invoice = some (r, some e) → r = {}) ∧
    (∀ r e, c.ListPeers = some (r, some e) → r = Slice.backed []) ∧
    (∀ peer localSat pushSat priv hash index e,
      c.OpenChannel peer localSat pushSat priv = some (hash, index, some e) →
      hash = Bytes.zero 32 ∧ index = 0) ∧
    (∀ activeOnly publicOnly r e,
      c.ListChannels activeOnly publicOnly = some (r, some e) → r = Slice.backed []) := by
  refine ⟨?_, ?_, ?_, ?_, ?_, ?_, ?_, ?_, ?_, ?_, ?_, ?_, ?_⟩
  · intro e he
    rcases hb : l.WalletBalance with ⟨b, err⟩
    rw [hb] at he
    simp only at he
    subst he
    simp [LndClient.WalletBalance, hl, hb]
  · intro e DecodeInvoice value memo hhash he
    rcases hb : l.AddInvoice (addInvoiceData value memo hhash) with ⟨h, enc, err⟩
    rw [hb] at he
    simp only at he
    subst he
    simp [LndClient.AddInvoice, hl, hb]
  · intro e invoice he
    simp [LndClient.PayInvoice, hl, he]
  · intro e he
    rcases hb : l.ListPeers with ⟨ps, err⟩
    rw [hb] at he
    simp only at he
    subst he
    simp [LndClient.ListPeers, hl, hb, Slice.empty]
  · intro e peer host he
    simp [LndClient.ConnectPeer, hl, he]
  · intro e peer localSat pushSat priv he
    rcases hb : l.OpenChannel peer localSat pushSat priv with ⟨o, err⟩
    rw [hb] at he
    simp only at he
    subst he
    simp [LndClient.OpenChannel, hl, hb]
  · intro e activeOnly publicOnly he
    rcases hb : l.ListChannels activeOnly publicOnly with ⟨cs, err⟩
    rw [hb] at he
    simp only at he
    subst he
    simp [LndClient.ListChannels, hl, hb, Slice.empty]
  · intro r e h
    rcases hb : l.WalletBalance with ⟨b, err⟩
    cases err with
    | some e0 =>
      simp [LndClient.WalletBalance, hl, hb] at h
      exact h.1.symm
    | none => cases b <;> simp [LndClient.WalletBalance, hl, hb] at h
  · intro DecodeInvoice value memo hhash r e h
    rcases hb : l.AddInvoice (addInvoiceData value memo hhash) with ⟨hash, enc, err⟩
    cases err with
    | some e0 =>
      simp [LndClient.AddInvoice, hl, hb] at h
      exact h.1.symm
    | none =>
      rcases hd : DecodeInvoice enc c.network with ⟨inv, derr⟩
      cases derr with
      | some e1 =>
        simp [LndClient.AddInvoice, hl, hb, hd] at h
        exact h.1.symm
      | none => simp [LndClient.AddInvoice, hl, hb, hd] at h
  · intro invoice r e h
    simp only [LndClient.PayInvoice, hl] at h
    split at h
    · simp only [Option.some.injEq, Prod.mk.injEq] at h
      exact h.1.symm
    · split at h
      · simp only [Option.some.injEq, Prod.mk.injEq] at h
        exact h.1.symm
      · simp at h
  · intro r e h
    rcases hb : l.ListPeers with ⟨ps, err⟩
    cases err with
    | some e0 =>
      simp [LndClient.ListPeers, hl, hb, Slice.empty] at h
      exact h.1.symm
    | none => simp [LndClient.ListPeers, hl, hb] at h
  · intro peer localSat pushSat priv hash index e h
    rcases hb : l.OpenChannel peer localSat pushSat priv with ⟨o, err⟩
    cases err with
    | some e0 =>
      simp [LndClient.OpenChannel, hl, hb] at h
      exact ⟨h.1.symm, h.2.1.symm⟩
    | none => cases o <;> simp [LndClient.OpenChannel, hl, hb] at h
  · intro activeOnly publicOnly r e h
    rcases hb : l.ListChannels activeOnly publicOnly with ⟨cs, err⟩
    cases err with
    | some e0 =>
      simp [LndClient.ListChannels, hl, hb, Slice.empty] at h
      exact h.1.symm
    | none => simp [LndClient.ListChannels, hl, hb] at h

/-- Witness of C8: the backend `Example.failing` reports `Example.failure` on every
call, next to populated values; each operation returns that error with the zero
result. -/
theorem backend_error_returned_witness :
    (Example.client Example.failing).WalletBalance = some (0, some Example.failure) ∧
    (Example.client Example.failing).AddInvoice Example.decode 1000 "coffee" Slice.nil =
      some ({}, some Example.failure) ∧
    (Example.client Example.failing).PayInvoice {} = some ({}, some Example.failure) ∧
    (Example.client Example.failing).ListPeers = some (Slice.backed [], some Example.failure) ∧
    (Example.client Example.failing).ConnectPeer Example.pubkey "10.0.0.2:9735" =
      some (some Example.failure) ∧
    (Example.client Example.failing).OpenChannel Example.pubkey 20000 0 false =
      some (Bytes.zero 32, 0, some Example.failure) ∧
    (Example.client Example.failing).ListChannels false false =
      some (Slice.backed [], some Example.failure) :=
  ⟨(backend_error_returned (Example.client Example.failing) Example.failing rfl).1 _ rfl,
   (backend_error_returned (Example.client Example.failing) Example.failing rfl).2.1
      _ Example.decode 1000 "coffee" Slice.nil rfl,
   (backend_error_returned (Example.client Example.failing) Example.failing rfl).2.2.1
      _ {} rfl,
   (backend_error_returned (Example.client Example.failing) Example.failing rfl).2.2.2.1
      _ rfl,
   (backend_error_returned (Example.client Example.failing) Example.failing rfl).2.2.2.2.1
      _ Example.pubkey "10.0.0.2:9735" rfl,
   (backend_error_returned (Example.client Example.failing) Example.failing rfl).2.2.2.2.2.1
      _ Example.pubkey 20000 0 false rfl,
   (backend_error_returned (Example.client Example.failing) Example.failing
      rfl).2.2.2.2.2.2.1 _ false false rfl⟩

/-! ### Channel lists -/

theorem toInt_of_int64 (x : Int) (hlo : -2 ^ 63 ≤ x) (hhi : x < 2 ^ 63) : toInt x = x := by
  unfold toInt intBits
  have h1 : (0 : Int) ≤ x + 2 ^ (64 - 1) := by norm_num; omega
  have h2 : x + 2 ^ (64 - 1) < 2 ^ 64 := by norm_num; omega
  rw [Int.emod_eq_of_lt h1 h2]
  ring

theorem foldl_append_eq {α β : Type} (f : α → β) (xs : List α) (acc : Slice β) :
    (xs.foldl (fun (s : Slice β) x => s.append (f x)) acc).toList = acc.toList ++ xs.map f := by
  induction xs generalizing acc with
  | nil => simp
  | cons x xs ih =>
    simp only [List.foldl_cons, List.map_cons]
    rw [ih]
    simp [Slice.append, Slice.toList]

theorem foldl_append_nil {α β : Type} (f : α → β) (acc : Slice β) :
    ([] : List α).foldl (fun (s : Slice β) x => s.append (f x)) acc = acc := rfl

theorem hex_length (src : List Byte) : (hex.EncodeToString src).length = 2 * src.length := by
  unfold hex.EncodeToString
  simp only [String.length]
  induction src with
  | nil => rfl
  | cons b bs ih =>
    simp only [List.flatMap_cons, List.length_append, List.length_cons, List.length_nil, ih]
    omega

/-- What holds of the channel list: for channel records the backend returns without
error, the response has one entry per record, in order; the flags are unchanged, the
public key is the hexadecimal text of `hex.EncodeToString`, 66 characters long, and
each number is the record's number converted to `int`, which is the number itself
for a balance in the `int64` range and for a channel id below `2^63`. -/
theorem NewListChannelsResponse_entries (c : LndClient) (l : lnd.lnd)
    (activeOnly publicOnly : Bool) (lndChannels : Slice lndclient.ChannelInfo)
    (hl : c.lnd = some l) (hb : l.ListChannels activeOnly publicOnly = (lndChannels, none)) :
    ∃ channels, c.ListChannels activeOnly publicOnly = some (channels, none) ∧
      (NewListChannelsResponse channels).Channels.toList =
        lndChannels.toList.map (fun ci =>
          { ID := toInt ci.ChannelID
            LocalBalance := toInt ci.LocalBalance
            RemoteBalance := toInt ci.RemoteBalance
            Capacity := toInt ci.Capacity
            Active := ci.Active
            Private := ci.Private
            RemotePubkey := hex.EncodeToString ci.PubKeyBytes.val }) ∧
      (∀ ci ∈ lndChannels.toList,
        (hex.EncodeToString ci.PubKeyBytes.val).length = 66 ∧
        (ci.ChannelID < 2 ^ 63 → toInt ci.ChannelID = ci.ChannelID)) := by
  have hc : c.ListChannels activeOnly publicOnly =
      some (lndChannels.toList.foldl
        (fun (s : Slice lightning.Channel) ci => s.append
          { ID := ci.ChannelID, Capacity := ci.Capacity, LocalBalance := ci.LocalBalance,
            RemoteBalance := ci.RemoteBalance, Active := ci.Active, Private := ci.Private,
            RemotePubkey := ci.PubKeyBytes }) Slice.nil, none) := by
    simp only [LndClient.ListChannels, hl, hb]
  refine ⟨_, hc, ?_, ?_⟩
  · simp only [NewListChannelsResponse]
    rw [foldl_append_eq, foldl_append_eq]
    simp [Slice.toList, channelEntry, List.map_map, Function.comp_def]
  · intro ci _
    refine ⟨?_, ?_⟩
    · rw [hex_length, ci.PubKeyBytes.property]
    · intro h
      apply toInt_of_int64
      · have : (0 : Int) ≤ (ci.ChannelID : Int) := Int.ofNat_nonneg _
        omega
      · exact_mod_cast h

/-- C5 on the code: a backend that returns zero channels without error. `ListChannels`
returns the nil list, and `NewListChannelsResponse` of it has a nil `Channels`; the
same holds when the list handed to `NewListChannelsResponse` is empty and not nil.
The error path of `ListChannels` does return a list that is not nil. -/
theorem ListChannels_zero_channels_nil :
    (Example.client Example.quiet).ListChannels false false = some (Slice.nil, none) ∧
    (NewListChannelsResponse Slice.nil).Channels = Slice.nil ∧
    (NewListChannelsResponse (Slice.backed [])).Channels = Slice.nil ∧
    (NewListChannelsResponse Slice.nil).Channels.isNil = true ∧
    (Example.client Example.failing).ListChannels false false =
      some (Slice.backed [], some Example.failure) :=
  ⟨rfl, rfl, rfl, rfl, rfl⟩

/-- C10 on the code: a channel record whose `ChannelID` is `2^63`, a value of
`uint64`. The entry of the response has the id `-2^63`; the other fields are those of
the record, the public key in hexadecimal. -/
theorem NewListChannelsResponse_large_id :
    (Example.client (Example.listing (Slice.backed
        [Example.channelInfo 9223372036854775808]))).ListChannels false false =
      some (Slice.backed [{
        ID := 9223372036854775808, Capacity := 100000, LocalBalance := 60000,
        RemoteBalance := 40000, Active := true, Private := false,
        RemotePubkey := Example.pubkey }], none) ∧
    (NewListChannelsResponse (Slice.backed [{
        ID := 9223372036854775808, Capacity := 100000, LocalBalance := 60000,
        RemoteBalance := 40000, Active := true, Private := false,
        RemotePubkey := Example.pubkey }])).Channels =
      Slice.backed [{
        ID := -9223372036854775808, LocalBalance := 60000, RemoteBalance := 40000,
        Capacity := 100000, Active := true, Private := false,
        RemotePubkey := "02abababababababababababababababababababababababababababababababab" }] ∧
    (-9223372036854775808 : Int) ≠ ((9223372036854775808 : Nat) : Int) := by
  refine ⟨rfl, by decide, by decide⟩

/-! ### Connection establishment -/

theorem loop_all_fail (cfg : LndServicesConfig) (e : Nat → Error) :
    ∀ (left : Nat) (log : List Error) (d : Dialer) (v : Option lnd.lnd),
      (∀ i, i < left → (d.NewLndServices (d.calls + i) cfg).2 = some (e (d.calls + i))) →
      retry.loop (connectAttempt cfg) false left log (d, v) =
        some (({ d with calls := d.calls + left }, v),
          some (Error.retryError (log ++ (List.range left).map fun i => e (d.calls + i)))) := by
  intro left
  induction left with
  | zero => intro log d v _; simp [retry.loop]
  | succ n ih =>
    intro log d v h
    have h0 := h 0 (Nat.succ_pos n)
    simp only [Nat.add_zero] at h0
    rcases hd : d.NewLndServices d.calls cfg with ⟨s, err⟩
    rw [hd] at h0
    simp only at h0
    subst h0
    have hstep : connectAttempt cfg (d, v) =
        some (({ d with calls := d.calls + 1 }, v), some (e d.calls)) := by
      simp [connectAttempt, hd]
    rw [retry.loop, hstep]
    simp only
    rw [ih (log ++ [e d.calls]) { d with calls := d.calls + 1 } v]
    · have hr : (List.range (n + 1)).map (fun i => e (d.calls + i)) =
          e d.calls :: (List.range n).map (fun i => e (d.calls + 1 + i)) := by
        rw [List.range_succ_eq_map]
        simp [List.map_map, Function.comp_def, Nat.add_assoc, Nat.add_comm 1]
      rw [hr]
      simp [Nat.add_assoc, Nat.add_comm 1]
    · intro i hi
      have := h (i + 1) (Nat.succ_lt_succ hi)
      simpa [Nat.add_assoc, Nat.add_comm 1] using this

theorem loop_succeed (cfg : LndServicesConfig) (services : GrpcLndServices) :
    ∀ (k m : Nat) (log : List Error) (d : Dialer) (v : Option lnd.lnd),
      (∀ i, i < k → (d.NewLndServices (d.calls + i) cfg).2 ≠ none) →
      d.NewLndServices (d.calls + k) cfg = (some services, none) →
      retry.loop (connectAttempt cfg) false (k + 1 + m) log (d, v) =
        some (({ d with calls := d.calls + k + 1 }, services.Client), none) := by
  intro k
  induction k with
  | zero =>
    intro m log d v _ hs
    simp only [Nat.add_zero] at hs
    have hstep : connectAttempt cfg (d, v) =
        some (({ d with calls := d.calls + 1 }, services.Client), none) := by
      simp [connectAttempt, hs]
    rw [show 0 + 1 + m = m + 1 by omega, retry.loop, hstep]
  | succ n ih =>
    intro m log d v hf hs
    have h0 := hf 0 (Nat.succ_pos n)
    simp only [Nat.add_zero] at h0
    rcases hd : d.NewLndServices d.calls cfg with ⟨s, err⟩
    rw [hd] at h0
    cases err with
    | none => exact absurd rfl h0
    | some e0 =>
      have hstep : connectAttempt cfg (d, v) =
          some (({ d with calls := d.calls + 1 }, v), some e0) := by
        simp [connectAttempt, hd]
      rw [show n + 1 + 1 + m = (n + 1 + m) + 1 by omega, retry.loop, hstep]
      simp only
      rw [ih m (log ++ [e0]) { d with calls := d.calls + 1 } v]
      · simp [Nat.add_assoc, Nat.add_comm 1]
      · intro i hi
        have := hf (i + 1) (Nat.succ_lt_succ hi)
        simpa [Nat.add_assoc, Nat.add_comm 1] using this
      · simpa [Nat.add_assoc, Nat.add_comm 1] using hs

theorem loop_calls_le (cfg : LndServicesConfig) ( lastErrorOnly : Bool) :
    ∀ (left : Nat) (log : List Error) (d : Dialer) (v : Option lnd.lnd)
      (r : (Dialer × Option lnd.lnd) × Option Error),
      retry.loop (connectAttempt cfg) lastErrorOnly left log (d, v) = some r →
      r.1.1.calls ≤ d.calls + left ∧ r.1.1.NewLndServices = d.NewLndServices := by
  intro left
  induction left with
  | zero =>
    intro log d v r h
    simp only [retry.loop, Option.some.injEq] at h
    subst h
    exact ⟨Nat.le_refl _, rfl⟩
  | succ n ih =>
    intro log d v r h
    rcases hd : d.NewLndServices d.calls cfg with ⟨s, err⟩
    cases err with
    | some e0 =>
      have hstep : connectAttempt cfg (d, v) =
          some (({ d with calls := d.calls + 1 }, v), some e0) := by
        simp [connectAttempt, hd]
      rw [retry.loop, hstep] at h
      simp only at h
      have := ih _ _ _ _ h
      simp only at this
      exact ⟨by omega, this.2⟩
    | none =>
      cases s with
      | none =>
        have hstep : connectAttempt cfg (d, v) = none := by simp [connectAttempt, hd]
        rw [retry.loop, hstep] at h
        simp at h
      | some services =>
        have hstep : connectAttempt cfg (d, v) =
            some (({ d with calls := d.calls + 1 }, services.Client), none) := by
          simp [connectAttempt, hd]
        rw [retry.loop, hstep] at h
        simp only [Option.some.injEq] at h
        subst h
        exact ⟨by simp only; omega, rfl⟩

/-- C6, as stated, fails: the ten attempts fail, the tenth with "deadline exceeded".
`NewClient` returns a nil provider after ten calls, and its error is the
`retry.Error` listing the errors of the ten attempts, not the error of the tenth. -/
theorem NewClient_ten_failures_error :
    ((Example.dialer 10 Example.quiet).NewLndServices 9
        { LndAddress := "localhost:10009", Network := "testnet",
          CustomMacaroonPath := "admin.macaroon", TLSPath := "tls.cert" }).2 =
      some (Error.New "deadline exceeded") ∧
    NewClient (Example.dialer 10 Example.quiet)
        "localhost:10009" "testnet" "admin.macaroon" "tls.cert" 100 =
      some ((none, some (Error.retryError [
          Error.New "connection refused", Error.New "connection refused",
          Error.New "connection refused", Error.New "connection refused",
          Error.New "connection refused", Error.New "connection refused",
          Error.New "connection refused", Error.New "connection refused",
          Error.New "connection refused", Error.New "deadline exceeded"])),
        { Example.dialer 10 Example.quiet with calls := 10 }) ∧
    NewClient (Example.dialer 10 Example.quiet)
        "localhost:10009" "testnet" "admin.macaroon" "tls.cert" 100 ≠
      some ((none, some (Error.New "deadline exceeded")),
        { Example.dialer 10 Example.quiet with calls := 10 }) := by
  refine ⟨rfl, rfl, ?_⟩
  intro h
  have h2 : (some ((none, some (Error.retryError [
          Error.New "connection refused", Error.New "connection refused",
          Error.New "connection refused", Error.New "connection refused",
          Error.New "connection refused", Error.New "connection refused",
          Error.New "connection refused", Error.New "connection refused",
          Error.New "connection refused", Error.New "deadline exceeded"])),
        { Example.dialer 10 Example.quiet with calls := 10 }) :
        Option ((Option LndClient × Option Error) × Dialer)) =
      some ((none, some (Error.New "deadline exceeded")),
        { Example.dialer 10 Example.quiet with calls := 10 }) := h
  simp at h2

/-- C6, amended: `NewClient` makes at most 10 connection attempts. When the first 9
fail and the 10th succeeds it returns a provider that is not nil, bound to the
connection of the 10th attempt, with a nil error. When all 10 fail it makes no 11th
attempt and returns a nil provider and the `retry.Error` that lists the errors of
the 10 attempts in order, the error of the final attempt last. -/
theorem NewClient_retries (d : Dialer) (address network macPath tlsPath : String)
    (maxFee : btcutil.Amount) :
    (∀ r d1, NewClient d address network macPath tlsPath maxFee = some (r, d1) →
      d1.calls ≤ d.calls + 10) ∧
    (∀ services,
      (∀ i, i < 9 → (d.NewLndServices (d.calls + i)
        { LndAddress := address, Network := network,
          CustomMacaroonPath := macPath, TLSPath := tlsPath }).2 ≠ none) →
      d.NewLndServices (d.calls + 9)
        { LndAddress := address, Network := network,
          CustomMacaroonPath := macPath, TLSPath := tlsPath } = (some services, none) →
      NewClient d address network macPath tlsPath maxFee =
        some ((some { lnd := services.Client, network := network, maxFee := maxFee }, none),
          { d with calls := d.calls + 10 })) ∧
    (∀ e : Nat → Error,
      (∀ i, i < 10 → (d.NewLndServices (d.calls + i)
        { LndAddress := address, Network := network,
          CustomMacaroonPath := macPath, TLSPath := tlsPath }).2 = some (e i)) →
      NewClient d address network macPath tlsPath maxFee =
        some ((none, some (Error.retryError ((List.range 10).map e))),
          { d with calls := d.calls + 10 }) ∧
      ((List.range 10).map e).getLast? = some (e 9)) := by
  have hdo : ∀ s, retry.Do (connectAttempt
        { LndAddress := address, Network := network,
          CustomMacaroonPath := macPath, TLSPath := tlsPath })
        [retry.Attempts 10, retry.Delay (1 * 1000000000)] s =
      retry.loop (connectAttempt
        { LndAddress := address, Network := network,
          CustomMacaroonPath := macPath, TLSPath := tlsPath }) false 10 [] s := by
    intro s
    rfl
  refine ⟨?_, ?_, ?_⟩
  · intro r d1 h
    simp only [NewClient, connect, hdo] at h
    cases hloop : retry.loop (connectAttempt
        { LndAddress := address, Network := network,
          CustomMacaroonPath := macPath, TLSPath := tlsPath }) false 10 [] (d, none) with
    | none => simp [hloop] at h
    | some res =>
      have hle := (loop_calls_le _ false 10 [] d none res hloop).1
      rcases res with ⟨⟨d2, v⟩, err⟩
      rw [hloop] at h
      cases err with
      | none =>
        simp only [Option.some.injEq, Prod.mk.injEq] at h
        rw [← h.2]
        exact hle
      | some e0 =>
        simp only [Option.some.injEq, Prod.mk.injEq] at h
        rw [← h.2]
        exact hle
  · intro services hf hs
    have hloop := loop_succeed _ services 9 0 [] d none hf hs
    simp only [NewClient, connect, hdo]
    rw [show (10 : Nat) = 9 + 1 + 0 from rfl, hloop]
  · intro e he
    have hloop := loop_all_fail
      { LndAddress := address, Network := network,
        CustomMacaroonPath := macPath, TLSPath := tlsPath }
      (fun j => e (j - d.calls)) 10 [] d none
      (by
        intro i hi
        simpa using he i hi)
    refine ⟨?_, by simp [List.range_succ]⟩
    simp only [NewClient, connect, hdo]
    rw [hloop]
    simp

/-- Witness of the amended C6: a dialer refused 9 times and connected at the 10th
call. -/
theorem NewClient_retries_witness :
    NewClient (Example.dialer 9 Example.quiet)
        "localhost:10009" "testnet" "admin.macaroon" "tls.cert" 100 =
      some ((some { lnd := some Example.quiet, network := "testnet", maxFee := 100 }, none),
        { Example.dialer 9 Example.quiet with calls := 10 }) :=
  (NewClient_retries (Example.dialer 9 Example.quiet)
      "localhost:10009" "testnet" "admin.macaroon" "tls.cert" 100).2.1
    { Client := some Example.quiet }
    (by
      intro i hi
      have h : i = 0 ∨ i = 1 ∨ i = 2 ∨ i = 3 ∨ i = 4 ∨ i = 5 ∨ i = 6 ∨ i = 7 ∨ i = 8 := by
        omega
      rcases h with h | h | h | h | h | h | h | h | h <;> subst h <;>
        simp [Example.dialer])
    rfl
